import Mathlib

/-!
Shallow embedding of the room-scoped WebSocket broadcast hub
(`src/unnamed/part_000`, the current `hub.go`): the data model
(`Envelope`, `Message`, `TypingStatus`), the Hub event loop (`Hub.Run`:
register / unregister / broadcast), the client inbound pump
(`Client.readPump`) and the join path (`serveWs`).

Modelling conventions:
* A Go `*Client` pointer is a `Client` value; the `id` field stands for
  pointer identity (two clients with the same room and username are still
  distinct connections).
* The `clients map[*Client]bool` registry and each entry of
  `rooms map[string]map[*Client]bool` are `Finset Client`; a missing room
  key behaves as the empty set, exactly as a nil Go map does on iteration
  and lookup.
* A client's `send chan []byte` (capacity 256) is a `ChanState`: the list
  of queued frames, a closed flag, and a counter of `close` calls.  A
  non-blocking send (`select`/`default`) succeeds iff the queue holds
  fewer than 256 items.
* Wire bytes are `Frame`s.  `Frame.junk` stands for bytes that fail to
  unmarshal as an `Envelope`; `Frame.env` stands for bytes that decode to
  the given envelope.  A payload (`json.RawMessage`) is a `RawPayload`:
  `ofMessage m` / `ofTyping t` are the JSON encodings of `m` / `t`, and
  `blob s` stands for a JSON value that fails to unmarshal into either
  struct (for example a JSON string).  Decoders return `Option`.
* `log` entries abstract `log.Println` calls; the database is a
  `saveOk : Message → Bool` oracle (`SaveMessage` result), which per the
  source affects only the log.
* The Hub goroutine is a step function on `HubState`.  The eviction path
  `h.unregister <- client` inside the broadcast arm is modelled as the
  handler emitting unregister events, which are then processed by the
  same loop before the next external event (the buffered-channel reading
  of the design; the channel itself is abstracted).
-/

set_option autoImplicit false

namespace Lifemart

/-- `Message` from the source: `{username, text, timestamp int64}`.
Timestamps are Unix seconds; `Int` models `int64` (no overflow concerns
at this magnitude). -/
structure Message where
  username : String
  text : String
  timestamp : Int
deriving DecidableEq, Repr

/-- `TypingStatus` from the source: `{user, status bool}`. -/
structure TypingStatus where
  user : String
  status : Bool
deriving DecidableEq, Repr

/-- A `json.RawMessage` payload, abstracted by how it decodes.
`ofMessage` / `ofTyping` are JSON encodings of the respective structs;
`blob` is a JSON value that unmarshals into neither struct (a type
mismatch, e.g. a JSON string where an object is expected). -/
inductive RawPayload where
  | ofMessage (m : Message)
  | ofTyping (t : TypingStatus)
  | blob (s : String)
deriving DecidableEq, Repr

/-- `json.Unmarshal(payload, &msg)` for `msg : Message`: succeeds exactly
on an encoded `Message`. -/
def RawPayload.decodeMessage : RawPayload → Option Message
  | .ofMessage m => some m
  | _ => none

/-- `json.Unmarshal(payload, &ts)` for `ts : TypingStatus`. -/
def RawPayload.decodeTyping : RawPayload → Option TypingStatus
  | .ofTyping t => some t
  | _ => none

/-- `Envelope` from the source: `{type, room, payload json.RawMessage}`. -/
structure Envelope where
  type : String
  room : String
  payload : RawPayload
deriving DecidableEq, Repr

/-- Raw wire bytes: either bytes decoding to an envelope, or bytes that
fail `json.Unmarshal` into `Envelope` (`junk`). -/
inductive Frame where
  | env (e : Envelope)
  | junk (s : String)
deriving DecidableEq, Repr

/-- `json.Unmarshal(message, &env)` for `env : Envelope`. -/
def Frame.decodeEnvelope : Frame → Option Envelope
  | .env e => some e
  | .junk _ => none

/-- A `*Client`: `id` models pointer identity; `room` and `username` are
the fields set by `serveWs`. -/
structure Client where
  id : Nat
  room : String
  username : String
deriving DecidableEq, Repr

/-- Capacity of the `send` channel: `make(chan []byte, 256)`. -/
def sendCap : Nat := 256

/-- State of one client's `send` channel: queued frames (FIFO), whether
`close` has been called, and how many times it has been called. -/
structure ChanState where
  queue : List Frame
  closed : Bool
  closeCount : Nat
deriving DecidableEq, Repr

/-- A freshly made `send` channel: empty, open. -/
def ChanState.fresh : ChanState := ⟨[], false, 0⟩

/-- `close(client.send)`. -/
def ChanState.close (cs : ChanState) : ChanState :=
  { cs with closed := true, closeCount := cs.closeCount + 1 }

/-- Append one frame to the channel buffer (a successful non-blocking
send). -/
def ChanState.enqueue (cs : ChanState) (f : Frame) : ChanState :=
  { cs with queue := cs.queue ++ [f] }

/-- The Hub's mutable state: the `clients` registry, the `rooms` index
(total function, missing key = empty set, as for a nil Go map), and the
per-client channel states. -/
structure HubState where
  clients : Finset Client
  rooms : String → Finset Client
  chans : Client → ChanState

/-- `NewHub`: empty registry, empty room index; channels of not yet
created clients are fresh placeholders. -/
def initHub : HubState :=
  { clients := ∅, rooms := fun _ => ∅, chans := fun _ => ChanState.fresh }

/-- The three event kinds the Hub's `select` receives. -/
inductive HubEvent where
  | register (c : Client)
  | unregister (c : Client)
  | broadcast (f : Frame)
deriving DecidableEq

/-- The `case client := <-h.register` arm: add to the registry and to the
room's set (creating the set if the room key is absent). -/
def applyRegister (s : HubState) (c : Client) : HubState :=
  { s with
    clients := insert c s.clients,
    rooms := Function.update s.rooms c.room (insert c (s.rooms c.room)) }

/-- The `case client := <-h.unregister` arm: if the client is in the
registry, delete it from the registry and close its send channel.  The
room index is not touched (there is no `delete(h.rooms[...], client)` in
the source). -/
def applyUnregister (s : HubState) (c : Client) : HubState :=
  if c ∈ s.clients then
    { s with
      clients := s.clients.erase c,
      chans := Function.update s.chans c (s.chans c).close }
  else s

/-- Output of processing one event: the new state, the clients for which
the broadcast arm sent `h.unregister <- client` (full send buffer), the
`SaveMessage` invocations, and the log lines. -/
structure StepOut where
  state : HubState
  evicted : Finset Client
  saves : List Message
  log : List String

/-- The clients the broadcast arm's loop reaches: it ranges over the
room's set and `continue`s past clients no longer in the registry. -/
def roomMembers (s : HubState) (room : String) : Finset Client :=
  s.rooms room ∩ s.clients

/-- The members whose non-blocking send succeeds (buffer not full). -/
def receiversOf (s : HubState) (room : String) : Finset Client :=
  (roomMembers s room).filter fun c => (s.chans c).queue.length < sendCap

/-- The members sent to `h.unregister` instead (buffer full). -/
def evictedOf (s : HubState) (room : String) : Finset Client :=
  (roomMembers s room).filter fun c => ¬ (s.chans c).queue.length < sendCap

/-- The `case message := <-h.broadcast` arm of `Hub.Run`:
decode the envelope (on failure log and `continue`); if the type is
`chat_message` and the payload decodes, call `SaveMessage` and log a
failure; then for every client in the room's set that is still in the
registry (`continue` otherwise), non-blocking-send the raw bytes —
on a full buffer, send the client to `h.unregister` instead. -/
def applyBroadcast (saveOk : Message → Bool) (s : HubState) (f : Frame) :
    StepOut :=
  match f.decodeEnvelope with
  | none => ⟨s, ∅, [], ["unmarshal envelope error"]⟩
  | some env =>
    let saves : List Message :=
      if env.type = "chat_message" then
        match env.payload.decodeMessage with
        | some m => [m]
        | none => []
      else []
    let log : List String :=
      saves.filterMap fun m => if saveOk m then none else some "SaveMessage error"
    ⟨{ s with
        chans := fun c =>
          if c ∈ receiversOf s env.room then (s.chans c).enqueue f
          else s.chans c },
      evictedOf s env.room, saves, log⟩

/-- One iteration of `Hub.Run`'s `select`, for a given received event. -/
def processEvent (saveOk : Message → Bool) (s : HubState) :
    HubEvent → StepOut
  | .register c => ⟨applyRegister s c, ∅, [], []⟩
  | .unregister c => ⟨applyUnregister s c, ∅, [], []⟩
  | .broadcast f => applyBroadcast saveOk s f

/-- Drain the unregister events the broadcast arm emitted: each evicted
client goes through the unregister arm (`applyUnregister`) once.  The
evicted clients are distinct, so the combined effect of those unregister
events is: registry minus the evicted set, and the channel of every
evicted client that was registered is closed. -/
def drainEvictions (s : HubState) (ev : Finset Client) : HubState :=
  { s with
    clients := s.clients \ ev,
    chans := fun c =>
      if c ∈ ev ∧ c ∈ s.clients then (s.chans c).close else s.chans c }

/-- Process one external event and then drain the unregister events the
broadcast arm emitted for slow clients (they are received by the same
loop before the next external event; unregister events emit nothing
further).  `SaveMessage` results do not affect the state (the source
only logs them), so the state transition uses a fixed oracle. -/
def settle (s : HubState) (e : HubEvent) : HubState :=
  let out := processEvent (fun _ => true) s e
  drainEvictions out.state out.evicted

/-- External actions driving the system: a Hub event, or one `serveWs`
call (a client joining, with the `GetLastMessages` result). -/
inductive HubAction where
  | evt (e : HubEvent)
  | join (c : Client) (hist : Option (List Message))

/-- `serveWs` wraps one history message: an envelope of type
`chat_message` for the client's room. -/
def historyEnvelope (room : String) (m : Message) : Frame :=
  .env ⟨"chat_message", room, .ofMessage m⟩

/-- `serveWs` after a successful upgrade: make the client with a fresh
`send` channel; if `GetLastMessages` succeeded, enqueue each history
message wrapped as a `chat_message` envelope (on failure just log and
skip the replay); only then send the register event to the Hub. -/
def serveWs (s : HubState) (c : Client) (hist : Option (List Message)) :
    HubState :=
  let start : ChanState :=
    match hist with
    | none => ChanState.fresh
    | some msgs => { ChanState.fresh with queue := msgs.map (historyEnvelope c.room) }
  let s1 : HubState := { s with chans := Function.update s.chans c start }
  settle s1 (.register c)

/-- Apply one external action. -/
def stepAction (s : HubState) : HubAction → HubState
  | .evt e => settle s e
  | .join c hist => serveWs s c hist

/-- Run a list of external actions from a state. -/
def runActions (s : HubState) (l : List HubAction) : HubState :=
  l.foldl stepAction s

/-- Hub states reachable from `NewHub` by some sequence of events and
joins. -/
def Reachable (s : HubState) : Prop :=
  ∃ l : List HubAction, s = runActions initHub l

/-- The body of `Client.readPump` for one frame read from the transport,
at server time `now` (`time.Now().Unix()`): decode the envelope (a
failed unmarshal only logs, leaving the zero-value envelope, whose empty
type tag matches no `switch` case); on `chat_message` decode the payload
(a failure only logs, leaving the zero-value `Message`), overwrite the
timestamp with `now`, re-encode and forward to `h.broadcast`; on
`typing_status` decode (same failure handling), re-encode and forward;
any other tag falls through the `switch` and forwards nothing.  Returns
the frame forwarded to the Hub, if any.  The `Client` argument is the
receiver `c`; the source reads only `wrap.Type` and `wrap.Room`, never
`c.room`. -/
def readFrame (now : Int) (_c : Client) (f : Frame) : Option Frame :=
  match f.decodeEnvelope with
  | none => none
  | some wrap =>
    if wrap.type = "chat_message" then
      let msg := wrap.payload.decodeMessage.getD ⟨"", "", 0⟩
      let msg' := { msg with timestamp := now }
      some (.env ⟨wrap.type, wrap.room, .ofMessage msg'⟩)
    else if wrap.type = "typing_status" then
      let ts := wrap.payload.decodeTyping.getD ⟨"", false⟩
      some (.env ⟨wrap.type, wrap.room, .ofTyping ts⟩)
    else none

/-- `Client.readPump`'s loop over a sequence of frames successfully read
from the transport: every frame is processed (the loop exits only on a
transport read error, never on a decode problem), and the forwarded
broadcasts are collected in order. -/
def readRun (now : Int) (c : Client) (frames : List Frame) : List Frame :=
  frames.filterMap (readFrame now c)

/-- Structural invariant of the Hub loop: every registered client is in
its own room's set, and a room's set only holds clients of that room.
(The converse of the first part fails: the room index keeps stale
entries for unregistered clients.) -/
def HubInv (s : HubState) : Prop :=
  (∀ c ∈ s.clients, c ∈ s.rooms c.room) ∧
  (∀ R : String, ∀ c ∈ s.rooms R, c.room = R)

/-- Sample clients and wire data used to instantiate the theorems. -/
def aliceC : Client := ⟨0, "lobby", "alice"⟩

def bobC : Client := ⟨1, "lobby", "bob"⟩

def carolC : Client := ⟨2, "other", "carol"⟩

def slowC : Client := ⟨3, "lobby", "slow"⟩

def senderC : Client := ⟨4, "other", "dave"⟩

def joinC : Client := ⟨5, "lobby", "joan"⟩

def histM1 : Message := ⟨"alice", "hello", 11⟩

def histM2 : Message := ⟨"bob", "hi alice", 12⟩

/-- A `chat_message` envelope for room `lobby`. -/
def chatLobbyEnv : Envelope := ⟨"chat_message", "lobby", .ofMessage ⟨"alice", "hi", 0⟩⟩

def chatLobby : Frame := .env chatLobbyEnv

/-- A `GetLastMessages` result long enough to fill a send buffer. -/
def fullHist : List Message := List.replicate sendCap ⟨"alice", "x", 0⟩

/-- The unknown-tag frame from the spec's scenario. -/
def pingFrame : Frame := .env ⟨"ping", "lobby", .blob "empty"⟩

/-- A `chat_message` envelope whose payload fails to decode. -/
def badChatFrame : Frame := .env ⟨"chat_message", "lobby", .blob "notjson"⟩

lemma drainEvictions_empty (s : HubState) : drainEvictions s ∅ = s := by
  simp [drainEvictions]

lemma settle_register (s : HubState) (c : Client) :
    settle s (.register c) = applyRegister s c := by
  simp [settle, processEvent, drainEvictions_empty]

lemma settle_unregister (s : HubState) (c : Client) :
    settle s (.unregister c) = applyUnregister s c := by
  simp [settle, processEvent, drainEvictions_empty]

lemma hubInv_congr {s s' : HubState} (hc : s'.clients = s.clients)
    (hr : s'.rooms = s.rooms) (h : HubInv s) : HubInv s' := by
  unfold HubInv at h ⊢
  rw [hc, hr]
  exact h

lemma hubInv_init : HubInv initHub := by
  refine ⟨?_, ?_⟩
  · intro c hc
    simp [initHub] at hc
  · intro R c hc
    simp [initHub] at hc

lemma hubInv_applyRegister (s : HubState) (c : Client) (h : HubInv s) :
    HubInv (applyRegister s c) := by
  obtain ⟨h1, h2⟩ := h
  refine ⟨?_, ?_⟩
  · intro d hd
    simp only [applyRegister, Finset.mem_insert] at hd
    simp only [applyRegister, Function.update_apply]
    rcases hd with rfl | hd
    · simp
    · by_cases hr : d.room = c.room
      · rw [if_pos hr]
        exact Finset.mem_insert_of_mem (hr ▸ h1 d hd)
      · rw [if_neg hr]
        exact h1 d hd
  · intro R d hd
    simp only [applyRegister, Function.update_apply] at hd
    by_cases hr : R = c.room
    · rw [if_pos hr] at hd
      rcases Finset.mem_insert.1 hd with rfl | hd
      · exact hr.symm
      · exact h2 R d (hr ▸ hd)
    · rw [if_neg hr] at hd
      exact h2 R d hd

lemma hubInv_applyUnregister (s : HubState) (c : Client) (h : HubInv s) :
    HubInv (applyUnregister s c) := by
  unfold applyUnregister
  split
  · exact ⟨fun d hd => h.1 d (Finset.mem_of_mem_erase hd), h.2⟩
  · exact h

lemma hubInv_drainEvictions (s : HubState) (ev : Finset Client)
    (h : HubInv s) : HubInv (drainEvictions s ev) :=
  ⟨fun d hd => h.1 d (Finset.mem_sdiff.1 hd).1, h.2⟩

lemma applyBroadcast_state_clients (saveOk : Message → Bool) (s : HubState)
    (f : Frame) : (applyBroadcast saveOk s f).state.clients = s.clients := by
  cases f <;> rfl

lemma applyBroadcast_state_rooms (saveOk : Message → Bool) (s : HubState)
    (f : Frame) : (applyBroadcast saveOk s f).state.rooms = s.rooms := by
  cases f <;> rfl

lemma hubInv_settle (s : HubState) (e : HubEvent) (h : HubInv s) :
    HubInv (settle s e) := by
  cases e with
  | register c =>
    rw [settle_register]
    exact hubInv_applyRegister s c h
  | unregister c =>
    rw [settle_unregister]
    exact hubInv_applyUnregister s c h
  | broadcast f =>
    apply hubInv_drainEvictions
    exact hubInv_congr (applyBroadcast_state_clients _ s f)
      (applyBroadcast_state_rooms _ s f) h

lemma hubInv_serveWs (s : HubState) (c : Client) (hist : Option (List Message))
    (h : HubInv s) : HubInv (serveWs s c hist) := by
  unfold serveWs
  exact hubInv_settle _ _ (hubInv_congr rfl rfl h)

lemma hubInv_stepAction (s : HubState) (a : HubAction) (h : HubInv s) :
    HubInv (stepAction s a) := by
  cases a with
  | evt e => exact hubInv_settle s e h
  | join c hist => exact hubInv_serveWs s c hist h

lemma hubInv_runActions (l : List HubAction) (s : HubState) (h : HubInv s) :
    HubInv (runActions s l) := by
  induction l generalizing s with
  | nil => exact h
  | cons a t ih => exact ih (stepAction s a) (hubInv_stepAction s a h)

lemma reachable_hubInv (s : HubState) (h : Reachable s) : HubInv s := by
  obtain ⟨l, rfl⟩ := h
  exact hubInv_runActions l initHub hubInv_init

lemma mem_receiversOf {s : HubState} {room : String} {c : Client} :
    c ∈ receiversOf s room ↔
      c ∈ s.rooms room ∧ c ∈ s.clients ∧
        (s.chans c).queue.length < sendCap := by
  simp [receiversOf, roomMembers, Finset.mem_filter, Finset.mem_inter,
    and_assoc]

lemma mem_evictedOf {s : HubState} {room : String} {c : Client} :
    c ∈ evictedOf s room ↔
      c ∈ s.rooms room ∧ c ∈ s.clients ∧
        ¬ (s.chans c).queue.length < sendCap := by
  simp [evictedOf, roomMembers, Finset.mem_filter, Finset.mem_inter,
    and_assoc]

lemma settle_broadcast_junk (s : HubState) (str : String) :
    settle s (.broadcast (.junk str)) = s := by
  simp [settle, processEvent, applyBroadcast, Frame.decodeEnvelope,
    drainEvictions_empty]

lemma settle_broadcast_env_clients (s : HubState) (env : Envelope) :
    (settle s (.broadcast (.env env))).clients =
      s.clients \ evictedOf s env.room := rfl

lemma settle_broadcast_env_rooms (s : HubState) (env : Envelope) :
    (settle s (.broadcast (.env env))).rooms = s.rooms := rfl

lemma settle_broadcast_env_chans (s : HubState) (env : Envelope) (c : Client) :
    (settle s (.broadcast (.env env))).chans c =
      if c ∈ s.rooms env.room ∧ c ∈ s.clients then
        (if (s.chans c).queue.length < sendCap
         then (s.chans c).enqueue (.env env)
         else (s.chans c).close)
      else s.chans c := by
  have hchans : (settle s (.broadcast (.env env))).chans c =
      if c ∈ evictedOf s env.room ∧ c ∈ s.clients then
        (if c ∈ receiversOf s env.room then (s.chans c).enqueue (.env env)
         else s.chans c).close
      else
        (if c ∈ receiversOf s env.room then (s.chans c).enqueue (.env env)
         else s.chans c) := rfl
  rw [hchans]
  by_cases hr : c ∈ s.rooms env.room
  · by_cases hc : c ∈ s.clients
    · by_cases hq : (s.chans c).queue.length < sendCap
      · have h1 : c ∈ receiversOf s env.room := mem_receiversOf.2 ⟨hr, hc, hq⟩
        have h2 : c ∉ evictedOf s env.room :=
          fun h => (mem_evictedOf.1 h).2.2 hq
        simp [h1, h2, hr, hc, hq]
      · have h1 : c ∉ receiversOf s env.room :=
          fun h => hq (mem_receiversOf.1 h).2.2
        have h2 : c ∈ evictedOf s env.room := mem_evictedOf.2 ⟨hr, hc, hq⟩
        simp [h1, h2, hr, hc, hq]
    · have h1 : c ∉ receiversOf s env.room :=
        fun h => hc (mem_receiversOf.1 h).2.1
      have h2 : c ∉ evictedOf s env.room :=
        fun h => hc (mem_evictedOf.1 h).2.1
      simp [h1, h2, hc]
  · have h1 : c ∉ receiversOf s env.room :=
      fun h => hr (mem_receiversOf.1 h).1
    have h2 : c ∉ evictedOf s env.room :=
      fun h => hr (mem_evictedOf.1 h).1
    simp [h1, h2, hr]

lemma settle_broadcast_chans_of_not_client (s : HubState) (f : Frame)
    (c : Client) (hc : c ∉ s.clients) :
    (settle s (.broadcast f)).chans c = s.chans c := by
  cases f with
  | junk str => rw [settle_broadcast_junk]
  | env e =>
    rw [settle_broadcast_env_chans]
    exact if_neg fun h => hc h.2

lemma settle_broadcast_clients_of_not_client (s : HubState) (f : Frame)
    (c : Client) (hc : c ∉ s.clients) :
    c ∉ (settle s (.broadcast f)).clients := by
  cases f with
  | junk str => rw [settle_broadcast_junk]; exact hc
  | env e =>
    rw [settle_broadcast_env_clients]
    exact fun h => hc (Finset.mem_sdiff.1 h).1

lemma applyUnregister_clients_not_mem (s : HubState) (c : Client) :
    c ∉ (applyUnregister s c).clients := by
  unfold applyUnregister
  split
  · exact Finset.not_mem_erase c s.clients
  · assumption

lemma applyUnregister_of_not_mem (s : HubState) (c : Client)
    (hc : c ∉ s.clients) : applyUnregister s c = s := by
  unfold applyUnregister
  rw [if_neg hc]

/-- C1 counterexample: register `aliceC` and then process an Unregister
event for it; the connection leaves the registry but is still in room
`lobby`'s set of the room index, so the claimed "if and only if" — and
in particular removal from the room's set on Unregister — fails on the
code (`Hub.Run` deletes from `h.clients` but never from `h.rooms`). -/
theorem c1_counterexample :
    aliceC ∉ (runActions initHub
      [.evt (.register aliceC), .evt (.unregister aliceC)]).clients ∧
    aliceC ∈ (runActions initHub
      [.evt (.register aliceC), .evt (.unregister aliceC)]).rooms
        aliceC.room := by
  decide

/-- C1 (amended): in every reachable Hub state, every connection in the
clients registry is in its room's set in the rooms index (the converse
fails: the room index can keep stale entries); processing an Unregister
event for a registered connection removes it from the registry and
closes its queue in that same step, but leaves the rooms index — hence
its room's set — unchanged. -/
theorem c1_registry_subset_room_index (s : HubState) (hs : Reachable s)
    (c : Client) (hc : c ∈ s.clients) :
    c ∈ s.rooms c.room ∧
    c ∉ (settle s (.unregister c)).clients ∧
    ((settle s (.unregister c)).chans c).closed = true ∧
    (settle s (.unregister c)).rooms = s.rooms := by
  refine ⟨(reachable_hubInv s hs).1 c hc, ?_, ?_, ?_⟩
  · rw [settle_unregister]
    exact applyUnregister_clients_not_mem s c
  · rw [settle_unregister]
    unfold applyUnregister
    rw [if_pos hc]
    simp [ChanState.close]
  · rw [settle_unregister]
    unfold applyUnregister
    rw [if_pos hc]

/-- Witness for `c1_registry_subset_room_index`: the amended invariant
and the Unregister effects at a concrete reachable state holding the
registered connection `bobC`. -/
theorem c1_registry_subset_room_index_witness :
    Reachable (runActions initHub [.evt (.register bobC)]) ∧
    bobC ∈ (runActions initHub [.evt (.register bobC)]).clients ∧
    (bobC ∈ (runActions initHub [.evt (.register bobC)]).rooms bobC.room ∧
     bobC ∉ (settle (runActions initHub [.evt (.register bobC)])
        (.unregister bobC)).clients ∧
     ((settle (runActions initHub [.evt (.register bobC)])
        (.unregister bobC)).chans bobC).closed = true ∧
     (settle (runActions initHub [.evt (.register bobC)])
        (.unregister bobC)).rooms
       = (runActions initHub [.evt (.register bobC)]).rooms) :=
  ⟨⟨[.evt (.register bobC)], rfl⟩, by decide,
   c1_registry_subset_room_index _ ⟨[.evt (.register bobC)], rfl⟩ bobC
     (by decide)⟩

/-- C5: processing two Unregister events for the same connection never
faults: the second event leaves the state exactly as the first left it,
and the close counter of the connection's queue rises by one exactly
when the connection was registered — the queue is closed exactly once,
by the first event, and not at all for an unregistered connection. -/
theorem c5_double_unregister_noop (s : HubState) (c : Client) :
    settle (settle s (.unregister c)) (.unregister c)
        = settle s (.unregister c) ∧
    ((settle s (.unregister c)).chans c).closeCount
        = (s.chans c).closeCount + (if c ∈ s.clients then 1 else 0) := by
  simp only [settle_unregister]
  constructor
  · exact applyUnregister_of_not_mem _ c (applyUnregister_clients_not_mem s c)
  · by_cases hc : c ∈ s.clients
    · unfold applyUnregister
      rw [if_pos hc]
      simp [ChanState.close, hc]
    · rw [applyUnregister_of_not_mem s c hc]
      simp [hc]

/-- C6 counterexample: an inbound `chat_message` frame whose payload
fails to decode is not dropped — `readPump` logs the unmarshal error but
then still stamps the zero-value message with the server time,
re-encodes it and forwards it to the Hub (there is no `continue` after
the error log). -/
theorem c6_counterexample :
    readFrame 100 aliceC badChatFrame =
      some (.env ⟨"chat_message", "lobby", .ofMessage ⟨"", "", 100⟩⟩) ∧
    readFrame 100 aliceC badChatFrame ≠ none := by
  decide

/-- C6 (amended): a frame whose envelope fails to decode is dropped (the
zero-value envelope's empty tag matches no case) and the connection
stays active; but a `chat_message` or `typing_status` frame whose
payload fails to decode is still forwarded to the Hub, re-encoded with
the zero-value payload (and the server timestamp for chat); in every
case the read loop keeps processing the following frames. -/
theorem c6_decode_failure_paths :
    (∀ (now : Int) (c : Client) (str : String),
      readFrame now c (.junk str) = none) ∧
    (∀ (now : Int) (c : Client) (r pl : String),
      readFrame now c (.env ⟨"chat_message", r, .blob pl⟩) =
        some (.env ⟨"chat_message", r, .ofMessage ⟨"", "", now⟩⟩)) ∧
    (∀ (now : Int) (c : Client) (r pl : String),
      readFrame now c (.env ⟨"typing_status", r, .blob pl⟩) =
        some (.env ⟨"typing_status", r, .ofTyping ⟨"", false⟩⟩)) ∧
    (∀ (now : Int) (c : Client) (f : Frame) (fs : List Frame),
      readRun now c (f :: fs) = (readFrame now c f).toList ++ readRun now c fs) := by
  refine ⟨fun now c str => rfl, fun now c r pl => rfl,
    fun now c r pl => rfl, fun now c f fs => ?_⟩
  cases h : readFrame now c f <;>
    simp [readRun, List.filterMap_cons, h]

/-- C7: an inbound `chat_message` frame with a decodable payload is
forwarded to the Hub as a broadcast whose re-encoded envelope keeps the
type and room but carries the payload with its timestamp overwritten by
the server time `now`, whatever timestamp the client supplied in `m`. -/
theorem c7_timestamp_overwritten (now : Int) (c : Client) (r : String)
    (m : Message) :
    readFrame now c (.env ⟨"chat_message", r, .ofMessage m⟩) =
      some (.env ⟨"chat_message", r, .ofMessage ⟨m.username, m.text, now⟩⟩) :=
  rfl

/-- C9: the unknown-tag frame `ping` is dropped without terminating the
read loop — the following frames are processed exactly as if it were
absent — and a valid `chat_message` sent afterwards on the same
connection is still forwarded to the Hub. -/
theorem c9_unknown_tag_dropped (now : Int) (c : Client) (fs : List Frame)
    (r : String) (m : Message) :
    readFrame now c pingFrame = none ∧
    readRun now c (pingFrame :: fs) = readRun now c fs ∧
    readRun now c [pingFrame, .env ⟨"chat_message", r, .ofMessage m⟩] =
      [.env ⟨"chat_message", r, .ofMessage ⟨m.username, m.text, now⟩⟩] := by
  have hping : readFrame now c pingFrame = none := rfl
  have hchat : readFrame now c (.env ⟨"chat_message", r, .ofMessage m⟩) =
      some (.env ⟨"chat_message", r, .ofMessage ⟨m.username, m.text, now⟩⟩) :=
    rfl
  refine ⟨hping, ?_, ?_⟩
  · simp [readRun, List.filterMap_cons, hping]
  · simp [readRun, List.filterMap_cons, hping, hchat]

set_option maxRecDepth 8000 in
/-- C2 counterexample: `slowC` joins `lobby` with a replay long enough to
fill its send buffer; a broadcast to `lobby` then evicts it.  After the
emitted unregister event is processed the connection is out of the
registry but still in the room index's `lobby` set, so the claimed
removal "from the registry and room index" fails on the code. -/
theorem c2_counterexample :
    slowC ∉ (runActions initHub
      [.join slowC (some fullHist), .evt (.broadcast chatLobby)]).clients ∧
    slowC ∈ (runActions initHub
      [.join slowC (some fullHist), .evt (.broadcast chatLobby)]).rooms
        "lobby" := by
  decide

/-- C2 (amended): a connection whose outbound queue is full when the Hub
dispatches a broadcast to its room is evicted through the Hub's own
unregister-event mechanism — the broadcast arm itself leaves the
registry untouched while iterating — and once that event is processed
the connection is removed from the registry and its queue is closed,
while its room-index entry remains; it receives no delivery from the
triggering broadcast, and no subsequent broadcast enqueues anything to
it (the stale room entry is skipped by the registry check). -/
theorem c2_full_queue_evicted (s : HubState) (env : Envelope) (f : Frame)
    (hf : f.decodeEnvelope = some env) (c : Client) (hc : c ∈ s.clients)
    (hr : c ∈ s.rooms env.room)
    (hfull : ¬ (s.chans c).queue.length < sendCap) :
    (applyBroadcast (fun _ => true) s f).state.clients = s.clients ∧
    c ∈ (applyBroadcast (fun _ => true) s f).evicted ∧
    c ∉ (settle s (.broadcast f)).clients ∧
    c ∈ (settle s (.broadcast f)).rooms env.room ∧
    ((settle s (.broadcast f)).chans c).queue = (s.chans c).queue ∧
    ((settle s (.broadcast f)).chans c).closed = true ∧
    (∀ f2 : Frame,
      (settle (settle s (.broadcast f)) (.broadcast f2)).chans c =
        (settle s (.broadcast f)).chans c) := by
  cases f with
  | junk str => simp [Frame.decodeEnvelope] at hf
  | env e =>
    obtain rfl : e = env := by
      simpa [Frame.decodeEnvelope] using hf
    have hmem : c ∈ evictedOf s e.room := mem_evictedOf.2 ⟨hr, hc, hfull⟩
    have hout : c ∉ (settle s (.broadcast (.env e))).clients := by
      rw [settle_broadcast_env_clients]
      exact fun h => (Finset.mem_sdiff.1 h).2 hmem
    refine ⟨applyBroadcast_state_clients _ s _, hmem, hout, ?_, ?_, ?_, ?_⟩
    · rw [settle_broadcast_env_rooms]
      exact hr
    · rw [settle_broadcast_env_chans, if_pos ⟨hr, hc⟩, if_neg hfull]
      rfl
    · rw [settle_broadcast_env_chans, if_pos ⟨hr, hc⟩, if_neg hfull]
      rfl
    · intro f2
      exact settle_broadcast_chans_of_not_client _ f2 c hout

set_option maxRecDepth 8000 in
/-- Witness for `c2_full_queue_evicted`: slow consumer `slowC` with a
full queue in a concrete reachable state, evicted by a `lobby`
broadcast: out of the registry, still in the room index. -/
theorem c2_full_queue_evicted_witness :
    slowC ∈ (runActions initHub [.join slowC (some fullHist)]).clients ∧
    ¬ (((runActions initHub [.join slowC (some fullHist)]).chans
        slowC).queue.length < sendCap) ∧
    slowC ∉ (settle (runActions initHub [.join slowC (some fullHist)])
      (.broadcast chatLobby)).clients ∧
    slowC ∈ (settle (runActions initHub [.join slowC (some fullHist)])
      (.broadcast chatLobby)).rooms chatLobbyEnv.room :=
  ⟨by decide, by decide,
   (c2_full_queue_evicted _ chatLobbyEnv chatLobby rfl slowC (by decide)
     (by decide) (by decide)).2.2.1,
   (c2_full_queue_evicted _ chatLobbyEnv chatLobby rfl slowC (by decide)
     (by decide) (by decide)).2.2.2.1⟩

/-- C3: `serveWs` enqueues the whole history replay into the new
connection's queue strictly before the Register event reaches the Hub,
so after one post-join broadcast to the client's room the queue holds
the replayed envelopes strictly before the broadcast frame; moreover a
broadcast never touches the channel of a connection that is not in the
room index for the envelope's room, so an unregistered connection cannot
observe a broadcast early. -/
theorem c3_history_before_broadcast (s : HubState) (c : Client)
    (msgs : List Message) (env : Envelope) (f : Frame)
    (hf : f.decodeEnvelope = some env) (hroom : env.room = c.room)
    (hlen : msgs.length < sendCap) :
    ((settle (serveWs s c (some msgs)) (.broadcast f)).chans c).queue =
      msgs.map (historyEnvelope c.room) ++ [f] ∧
    (∀ (t : HubState) (d : Client), d ∉ t.rooms env.room →
      (settle t (.broadcast f)).chans d = t.chans d) := by
  cases f with
  | junk str => simp [Frame.decodeEnvelope] at hf
  | env e =>
    obtain rfl : e = env := by
      simpa [Frame.decodeEnvelope] using hf
    constructor
    · have hchans : (serveWs s c (some msgs)).chans c =
          { ChanState.fresh with queue := msgs.map (historyEnvelope c.room) } := by
        simp [serveWs, settle_register, applyRegister]
      have hclient : c ∈ (serveWs s c (some msgs)).clients := by
        simp [serveWs, settle_register, applyRegister]
      have hrooms : c ∈ (serveWs s c (some msgs)).rooms e.room := by
        rw [hroom]
        simp [serveWs, settle_register, applyRegister]
      rw [settle_broadcast_env_chans, if_pos ⟨hrooms, hclient⟩, hchans]
      rw [if_pos (by simpa using hlen)]
      simp [ChanState.enqueue]
    · intro t d hd
      rw [settle_broadcast_env_chans]
      exact if_neg fun h => hd h.1

/-- Witness for `c3_history_before_broadcast`: `joinC` joins `lobby`
with history `[histM1, histM2]` and then one live broadcast arrives; its
queue is exactly the two replayed envelopes followed by the broadcast
frame. -/
theorem c3_history_before_broadcast_witness :
    chatLobbyEnv.room = joinC.room ∧
    [histM1, histM2].length < sendCap ∧
    ((settle (serveWs initHub joinC (some [histM1, histM2]))
        (.broadcast chatLobby)).chans joinC).queue =
      [histM1, histM2].map (historyEnvelope joinC.room) ++ [chatLobby] :=
  ⟨rfl, by decide,
   (c3_history_before_broadcast initHub joinC [histM1, histM2]
     chatLobbyEnv chatLobby rfl rfl (by decide)).1⟩

/-- C4: in a reachable state, processing one decodable `chat_message`
broadcast when no registered connection of the envelope's room has a
full queue appends exactly one copy of the identical raw frame to the
queue of every currently-registered connection of that room, leaves
every other connection's channel untouched (in particular connections
registered in other rooms receive nothing), and evicts nobody. -/
theorem c4_broadcast_fanout_exact (s : HubState) (hs : Reachable s)
    (env : Envelope) (f : Frame) (hf : f.decodeEnvelope = some env)
    (htype : env.type = "chat_message")
    (hnotfull : ∀ c ∈ s.clients, c.room = env.room →
      (s.chans c).queue.length < sendCap) :
    (∀ c ∈ s.clients, c.room = env.room →
      ((settle s (.broadcast f)).chans c).queue
        = (s.chans c).queue ++ [f]) ∧
    (∀ c : Client, ¬ (c ∈ s.clients ∧ c.room = env.room) →
      (settle s (.broadcast f)).chans c = s.chans c) ∧
    (settle s (.broadcast f)).clients = s.clients := by
  obtain ⟨h1, h2⟩ := reachable_hubInv s hs
  cases f with
  | junk str => simp [Frame.decodeEnvelope] at hf
  | env e =>
    obtain rfl : e = env := by
      simpa [Frame.decodeEnvelope] using hf
    refine ⟨?_, ?_, ?_⟩
    · intro c hc hroom
      have hrm : c ∈ s.rooms e.room := hroom ▸ h1 c hc
      rw [settle_broadcast_env_chans, if_pos ⟨hrm, hc⟩,
        if_pos (hnotfull c hc hroom)]
      rfl
    · intro c hno
      rw [settle_broadcast_env_chans]
      exact if_neg fun hmem => hno ⟨hmem.2, h2 e.room c hmem.1⟩
    · rw [settle_broadcast_env_clients]
      have hempty : evictedOf s e.room = ∅ := by
        rw [Finset.eq_empty_iff_forall_not_mem]
        intro c hcE
        obtain ⟨hrm, hcc, hfull⟩ := mem_evictedOf.1 hcE
        exact hfull (hnotfull c hcc (h2 e.room c hrm))
      rw [hempty, Finset.sdiff_empty]

/-- Witness for `c4_broadcast_fanout_exact`: a reachable state with
`aliceC` and `bobC` registered in `lobby` and `carolC` in `other`; one
`lobby` chat broadcast appends the frame to `bobC`'s queue, leaves
`carolC` untouched, and evicts nobody. -/
theorem c4_broadcast_fanout_exact_witness :
    Reachable (runActions initHub [.evt (.register aliceC),
      .evt (.register bobC), .evt (.register carolC)]) ∧
    ((settle (runActions initHub [.evt (.register aliceC),
        .evt (.register bobC), .evt (.register carolC)])
      (.broadcast chatLobby)).chans bobC).queue
      = ((runActions initHub [.evt (.register aliceC),
          .evt (.register bobC), .evt (.register carolC)]).chans
          bobC).queue ++ [chatLobby] ∧
    (settle (runActions initHub [.evt (.register aliceC),
        .evt (.register bobC), .evt (.register carolC)])
      (.broadcast chatLobby)).chans carolC
      = (runActions initHub [.evt (.register aliceC),
          .evt (.register bobC), .evt (.register carolC)]).chans carolC ∧
    (settle (runActions initHub [.evt (.register aliceC),
        .evt (.register bobC), .evt (.register carolC)])
      (.broadcast chatLobby)).clients
      = (runActions initHub [.evt (.register aliceC),
          .evt (.register bobC), .evt (.register carolC)]).clients :=
  ⟨⟨[.evt (.register aliceC), .evt (.register bobC),
      .evt (.register carolC)], rfl⟩,
   (c4_broadcast_fanout_exact _
     ⟨[.evt (.register aliceC), .evt (.register bobC),
        .evt (.register carolC)], rfl⟩
     chatLobbyEnv chatLobby rfl rfl (by decide)).1 bobC (by decide)
     (by decide),
   (c4_broadcast_fanout_exact _
     ⟨[.evt (.register aliceC), .evt (.register bobC),
        .evt (.register carolC)], rfl⟩
     chatLobbyEnv chatLobby rfl rfl (by decide)).2.1 carolC (by decide),
   (c4_broadcast_fanout_exact _
     ⟨[.evt (.register aliceC), .evt (.register bobC),
        .evt (.register carolC)], rfl⟩
     chatLobbyEnv chatLobby rfl rfl (by decide)).2.2⟩

/-- C8: `SaveMessage` is invoked on a Broadcast event exactly when the
envelope decodes with type tag `chat_message` and its payload decodes as
a `Message`; a failed save only produces a log line, and the resulting
state and eviction set are identical whatever the `SaveMessage` results,
so fan-out proceeds regardless of persistence. -/
theorem c8_persistence_decoupled (s : HubState) (f : Frame) :
    (∀ (saveOk : Message → Bool) (env : Envelope) (m : Message),
      f.decodeEnvelope = some env → env.type = "chat_message" →
      env.payload.decodeMessage = some m →
      (applyBroadcast saveOk s f).saves = [m]) ∧
    (∀ saveOk : Message → Bool, f.decodeEnvelope = none →
      (applyBroadcast saveOk s f).saves = []) ∧
    (∀ (saveOk : Message → Bool) (env : Envelope),
      f.decodeEnvelope = some env → env.type ≠ "chat_message" →
      (applyBroadcast saveOk s f).saves = []) ∧
    (∀ (saveOk : Message → Bool) (env : Envelope),
      f.decodeEnvelope = some env → env.payload.decodeMessage = none →
      (applyBroadcast saveOk s f).saves = []) ∧
    (∀ (saveOk : Message → Bool) (env : Envelope) (m : Message),
      f.decodeEnvelope = some env → env.type = "chat_message" →
      env.payload.decodeMessage = some m → saveOk m = false →
      (applyBroadcast saveOk s f).log = ["SaveMessage error"]) ∧
    (∀ ok1 ok2 : Message → Bool,
      (applyBroadcast ok1 s f).state = (applyBroadcast ok2 s f).state ∧
      (applyBroadcast ok1 s f).evicted = (applyBroadcast ok2 s f).evicted) := by
  refine ⟨?_, ?_, ?_, ?_, ?_, ?_⟩
  · intro saveOk env m hf ht hm
    cases f with
    | junk str => simp [Frame.decodeEnvelope] at hf
    | env e =>
      obtain rfl : e = env := by simpa [Frame.decodeEnvelope] using hf
      simp [applyBroadcast, Frame.decodeEnvelope, ht, hm]
  · intro saveOk hf
    cases f with
    | junk str => rfl
    | env e => simp [Frame.decodeEnvelope] at hf
  · intro saveOk env hf ht
    cases f with
    | junk str => simp [Frame.decodeEnvelope] at hf
    | env e =>
      obtain rfl : e = env := by simpa [Frame.decodeEnvelope] using hf
      simp [applyBroadcast, Frame.decodeEnvelope, ht]
  · intro saveOk env hf hm
    cases f with
    | junk str => simp [Frame.decodeEnvelope] at hf
    | env e =>
      obtain rfl : e = env := by simpa [Frame.decodeEnvelope] using hf
      simp [applyBroadcast, Frame.decodeEnvelope, hm]
  · intro saveOk env m hf ht hm hfail
    cases f with
    | junk str => simp [Frame.decodeEnvelope] at hf
    | env e =>
      obtain rfl : e = env := by simpa [Frame.decodeEnvelope] using hf
      simp [applyBroadcast, Frame.decodeEnvelope, ht, hm, hfail]
  · intro ok1 ok2
    cases f <;> exact ⟨rfl, rfl⟩

/-- Witness for `c8_persistence_decoupled`: with an always-failing
database, a concrete `lobby` chat broadcast records exactly one save
attempt and one failure log line, and produces the same state and
evictions as with an always-succeeding database. -/
theorem c8_persistence_decoupled_witness :
    (applyBroadcast (fun _ => false) initHub chatLobby).saves
      = [⟨"alice", "hi", 0⟩] ∧
    (applyBroadcast (fun _ => false) initHub chatLobby).log
      = ["SaveMessage error"] ∧
    (applyBroadcast (fun _ => false) initHub chatLobby).state
      = (applyBroadcast (fun _ => true) initHub chatLobby).state :=
  ⟨(c8_persistence_decoupled initHub chatLobby).1 (fun _ => false)
     chatLobbyEnv ⟨"alice", "hi", 0⟩ rfl rfl rfl,
   (c8_persistence_decoupled initHub chatLobby).2.2.2.2.1 (fun _ => false)
     chatLobbyEnv ⟨"alice", "hi", 0⟩ rfl rfl rfl rfl,
   ((c8_persistence_decoupled initHub chatLobby).2.2.2.2.2
     (fun _ => false) (fun _ => true)).1⟩

/-- C10: fan-out is keyed solely by the envelope's `room` field, not by
the sending connection's own room: `readPump` forwards the inbound
envelope's room unchanged and its output does not depend on the reading
connection at all, and the Hub delivers the forwarded frame to the
registered connections of the named room — even though the sender
belongs to a different room — and to nobody registered elsewhere. -/
theorem c10_fanout_keyed_by_envelope_room (now : Int) (sender : Client)
    (r : String) (m : Message) (s : HubState) (hs : Reachable s)
    (hsr : sender.room ≠ r) :
    readFrame now sender (.env ⟨"chat_message", r, .ofMessage m⟩) =
      some (.env ⟨"chat_message", r, .ofMessage ⟨m.username, m.text, now⟩⟩) ∧
    (∀ c' : Client,
      readFrame now c' (.env ⟨"chat_message", r, .ofMessage m⟩) =
        readFrame now sender (.env ⟨"chat_message", r, .ofMessage m⟩)) ∧
    (∀ d ∈ s.clients, d.room = r →
      (s.chans d).queue.length < sendCap →
      ((settle s (.broadcast
          (.env ⟨"chat_message", r, .ofMessage ⟨m.username, m.text, now⟩⟩))).chans d).queue
        = (s.chans d).queue
            ++ [.env ⟨"chat_message", r, .ofMessage ⟨m.username, m.text, now⟩⟩]) ∧
    (∀ d ∈ s.clients, d.room ≠ r →
      (settle s (.broadcast
          (.env ⟨"chat_message", r, .ofMessage ⟨m.username, m.text, now⟩⟩))).chans d
        = s.chans d) := by
  obtain ⟨h1, h2⟩ := reachable_hubInv s hs
  refine ⟨rfl, fun c' => rfl, ?_, ?_⟩
  · intro d hd hroom hq
    have hrm : d ∈ s.rooms r := hroom ▸ h1 d hd
    rw [settle_broadcast_env_chans, if_pos ⟨hrm, hd⟩, if_pos hq]
    rfl
  · intro d hd hroom
    rw [settle_broadcast_env_chans]
    exact if_neg fun hmem => hroom (h2 r d hmem.1)

/-- Witness for `c10_fanout_keyed_by_envelope_room`: `senderC` (room
`other`) forwards a chat envelope naming room `lobby`; in a reachable
state with `aliceC` registered in `lobby` and `carolC` in `other`, the
broadcast reaches `aliceC` and not `carolC`. -/
theorem c10_fanout_keyed_by_envelope_room_witness :
    senderC.room ≠ "lobby" ∧
    readFrame 77 senderC
        (.env ⟨"chat_message", "lobby", .ofMessage ⟨"dave", "hey", 3⟩⟩) =
      some (.env ⟨"chat_message", "lobby", .ofMessage ⟨"dave", "hey", 77⟩⟩) ∧
    ((settle (runActions initHub [.evt (.register aliceC),
        .evt (.register carolC)])
      (.broadcast (.env ⟨"chat_message", "lobby",
        .ofMessage ⟨"dave", "hey", 77⟩⟩))).chans aliceC).queue
      = ((runActions initHub [.evt (.register aliceC),
          .evt (.register carolC)]).chans aliceC).queue
        ++ [.env ⟨"chat_message", "lobby", .ofMessage ⟨"dave", "hey", 77⟩⟩] ∧
    (settle (runActions initHub [.evt (.register aliceC),
        .evt (.register carolC)])
      (.broadcast (.env ⟨"chat_message", "lobby",
        .ofMessage ⟨"dave", "hey", 77⟩⟩))).chans carolC
      = (runActions initHub [.evt (.register aliceC),
          .evt (.register carolC)]).chans carolC :=
  ⟨by decide,
   (c10_fanout_keyed_by_envelope_room 77 senderC "lobby" ⟨"dave", "hey", 3⟩
     _ ⟨[.evt (.register aliceC), .evt (.register carolC)], rfl⟩
     (by decide)).1,
   (c10_fanout_keyed_by_envelope_room 77 senderC "lobby" ⟨"dave", "hey", 3⟩
     _ ⟨[.evt (.register aliceC), .evt (.register carolC)], rfl⟩
     (by decide)).2.2.1 aliceC (by decide) (by decide) (by decide),
   (c10_fanout_keyed_by_envelope_room 77 senderC "lobby" ⟨"dave", "hey", 3⟩
     _ ⟨[.evt (.register aliceC), .evt (.register carolC)], rfl⟩
     (by decide)).2.2.2 carolC (by decide) (by decide)⟩

end Lifemart
